import Mathlib

/-!
# Verification of the in-memory record store (`src/test-workspace/sample.py`)

Shallow embedding of the Python module: two repository classes
(`UserRepository`, `ProductRepository`) holding an ordered list of records
(Python dicts mapping string keys to values), with identifier-based lookup
(`get_user` / `get_product`), delegating fetch wrappers, creation with
default-field population, partial in-place update, and a random 9-character
identifier generator.

Modelling choices:
* A Python value stored in a record is either a string or a number
  (`Value`); the module only ever stores string and numeric literals.
* A Python dict is an insertion-ordered association list `Dict`;
  `Dict.getVal` is `d.get(k)` (first occurrence), `Dict.getD` is
  `d.get(k, default)`, and `Dict.update a b` is both the dict-literal
  overlay `{**a, **b}` and the in-place `a.update(b)`: keys of `a` keep
  their position with values overridden by `b`, keys only in `b` are
  appended in `b`'s order.
* The subscript `user['id']` raises `KeyError` when the key is missing, so
  `get_user` and `update_user` return `Except Unit _`, the `.error` case
  being the raised `KeyError`.
* `random.choices(alphabet, k=9)` is modelled by a function
  `pick : Fin 9 → Fin idAlphabet.length` choosing an index into the
  population for each of the 9 draws; `_generate_id` is parameterised by it,
  and `create_user` / `create_product` take the generated string as an
  argument (Python evaluates `self._generate_id()` before `dict.get`).
* In-place mutation of a stored record (`user.update(updates)`) is modelled
  by replacing the record at its position in the list.  The Python guard
  `if user:` (truthiness) coincides with the match succeeding: a record
  returned by the lookup necessarily contains the key `'id'`, hence is a
  non-empty dict, hence truthy.
-/

/-- A value stored in a record field: a string or a number (the module only
stores string and numeric literals; `0.0` is modelled as `(0 : ℚ)`). -/
inductive Value where
  | vStr : String → Value
  | vNum : Rat → Value
deriving DecidableEq, Repr

/-- A Python dict: insertion-ordered key/value pairs. -/
abbrev Dict := List (String × Value)

/-- `d.get(k)`: value at the first occurrence of key `k`, if any. -/
def Dict.getVal : Dict → String → Option Value
  | [], _ => none
  | (k', v) :: rest, k => if k' = k then some v else Dict.getVal rest k

/-- `d.get(k, dflt)`. -/
def Dict.getD (d : Dict) (k : String) (dflt : Value) : Value :=
  (Dict.getVal d k).getD dflt

/-- `k in d`. -/
def Dict.hasKey : Dict → String → Bool
  | [], _ => false
  | (k', _) :: rest, k => if k' = k then true else Dict.hasKey rest k

/-- Python dict overlay: `{**a, **b}`, equally `a.update(b)`.  Keys of `a`
keep their position, with values overridden by `b` where present; keys
appearing only in `b` are appended in `b`'s order. -/
def Dict.update (a b : Dict) : Dict :=
  List.map (fun p => (p.1, Dict.getD b p.1 p.2)) a
    ++ List.filter (fun p => !Dict.hasKey a p.1) b

/-- `string.ascii_lowercase + string.digits`: the 36-symbol id alphabet. -/
def idAlphabet : List Char := ("abcdefghijklmnopqrstuvwxyz" ++ "0123456789").data

/-- `UserRepository._generate_id`:
`''.join(random.choices(string.ascii_lowercase + string.digits, k=9))`,
with the randomness source abstracted as the 9 picked indices. -/
def UserRepository._generate_id (pick : Fin 9 → Fin idAlphabet.length) : String :=
  String.mk (List.map (fun i => idAlphabet.get (pick i)) (List.finRange 9))

/-- `ProductRepository._generate_id` (textually identical to the user one). -/
def ProductRepository._generate_id (pick : Fin 9 → Fin idAlphabet.length) : String :=
  String.mk (List.map (fun i => idAlphabet.get (pick i)) (List.finRange 9))

/-- `UserRepository.get_user`: scan `self.users` in order, return the first
record whose `'id'` field equals `user_id`; `none` if no match; `.error` if
a scanned record lacks the `'id'` key (Python `KeyError`). -/
def get_user : List Dict → Value → Except Unit (Option Dict)
  | [], _ => .ok none
  | u :: rest, user_id =>
    match Dict.getVal u "id" with
    | none => .error ()
    | some v => if v = user_id then .ok (some u) else get_user rest user_id

/-- `UserRepository.fetch_user`: `return self.get_user(user_id)`. -/
def fetch_user (users : List Dict) (user_id : Value) : Except Unit (Option Dict) :=
  get_user users user_id

/-- `UserRepository.create_user`: build
`{'id': data.get('id', gen), 'name': data.get('name', 'Unknown'),
'email': data.get('email', ''), **data}`, append it, return it.
`gen` is the already-evaluated `self._generate_id()`.
Returns (new record, new state of `self.users`). -/
def create_user (users : List Dict) (gen : String) (user_data : Dict) :
    Dict × List Dict :=
  let user := Dict.update
    [("id", Dict.getD user_data "id" (Value.vStr gen)),
     ("name", Dict.getD user_data "name" (Value.vStr "Unknown")),
     ("email", Dict.getD user_data "email" (Value.vStr ""))]
    user_data
  (user, users ++ [user])

/-- `UserRepository.update_user`: look the record up by the same logic as
`get_user`; when found, mutate it in place with `user.update(updates)`
(modelled by replacing it at its position) and return it; when not found
return `none` and leave the list unchanged.
Returns (returned value, new state of `self.users`). -/
def update_user : List Dict → Value → Dict → Except Unit (Option Dict × List Dict)
  | [], _, _ => .ok (none, [])
  | u :: rest, user_id, updates =>
    match Dict.getVal u "id" with
    | none => .error ()
    | some v =>
      if v = user_id then .ok (some (Dict.update u updates), Dict.update u updates :: rest)
      else
        match update_user rest user_id updates with
        | .error e => .error e
        | .ok (r, rest') => .ok (r, u :: rest')

/-- `ProductRepository.get_product` (same scan over `self.products`). -/
def get_product : List Dict → Value → Except Unit (Option Dict)
  | [], _ => .ok none
  | p :: rest, product_id =>
    match Dict.getVal p "id" with
    | none => .error ()
    | some v => if v = product_id then .ok (some p) else get_product rest product_id

/-- `ProductRepository.fetch_product`: `return self.get_product(product_id)`. -/
def fetch_product (products : List Dict) (product_id : Value) : Except Unit (Option Dict) :=
  get_product products product_id

/-- `ProductRepository.create_product`: build
`{'id': data.get('id', gen), 'name': data.get('name', 'Unknown Product'),
'price': data.get('price', 0.0), **data}`, append it, return it. -/
def create_product (products : List Dict) (gen : String) (product_data : Dict) :
    Dict × List Dict :=
  let product := Dict.update
    [("id", Dict.getD product_data "id" (Value.vStr gen)),
     ("name", Dict.getD product_data "name" (Value.vStr "Unknown Product")),
     ("price", Dict.getD product_data "price" (Value.vNum 0))]
    product_data
  (product, products ++ [product])

/-- The state of `self.users` after a call to `update_user` (a raised
`KeyError` propagates before any mutation, leaving the list unchanged). -/
def update_user_state (users : List Dict) (user_id : Value) (updates : Dict) :
    List Dict :=
  match update_user users user_id updates with
  | .error _ => users
  | .ok (_, users') => users'

/-- The states of `self.users` reachable from a freshly constructed
`UserRepository` (`self.users = []`) by any sequence of `create_user` and
`update_user` calls. -/
inductive Reachable : List Dict → Prop
  | init : Reachable []
  | step_create (gen : String) (user_data : Dict) {s : List Dict} :
      Reachable s → Reachable (create_user s gen user_data).2
  | step_update (user_id : Value) (updates : Dict) {s : List Dict} :
      Reachable s → Reachable (update_user_state s user_id updates)

/-- Number of records in `users` whose `'id'` field is present and equals `v`. -/
def countId (users : List Dict) (v : Value) : Nat :=
  List.countP (fun u => decide (Dict.getVal u "id" = some v)) users

deriving instance DecidableEq for Except

/-! ## Dict lemmas -/

theorem Dict.hasKey_eq_isSome (d : Dict) (k : String) :
    Dict.hasKey d k = (Dict.getVal d k).isSome := by
  induction d with
  | nil => rfl
  | cons p rest ih =>
    obtain ⟨k', v⟩ := p
    by_cases h : k' = k <;> simp [Dict.hasKey, Dict.getVal, h, ih]

theorem Dict.getVal_append (xs ys : Dict) (k : String) :
    Dict.getVal (xs ++ ys) k = (Dict.getVal xs k).or (Dict.getVal ys k) := by
  induction xs with
  | nil => simp [Dict.getVal]
  | cons p rest ih =>
    obtain ⟨k', v⟩ := p
    by_cases h : k' = k <;> simp [Dict.getVal, h, ih]

theorem Dict.getVal_map_override (a b : Dict) (k : String) :
    Dict.getVal (List.map (fun p => (p.1, Dict.getD b p.1 p.2)) a) k
      = (Dict.getVal a k).map (fun v => (Dict.getVal b k).getD v) := by
  induction a with
  | nil => rfl
  | cons p rest ih =>
    obtain ⟨k', v⟩ := p
    by_cases h : k' = k
    · subst h; simp [Dict.getVal, Dict.getD]
    · simp [Dict.getVal, h, ih]

theorem Dict.getVal_filter_not_hasKey (a b : Dict) (k : String) :
    Dict.getVal (List.filter (fun p => !Dict.hasKey a p.1) b) k
      = if Dict.hasKey a k then none else Dict.getVal b k := by
  induction b with
  | nil => simp [Dict.getVal]
  | cons p rest ih =>
    obtain ⟨k', v⟩ := p
    by_cases hk : k' = k
    · subst hk
      by_cases ha : Dict.hasKey a k' = true
      · simp [List.filter, ha, ih, Dict.getVal]
      · simp only [Bool.not_eq_true] at ha
        simp [List.filter, ha, Dict.getVal]
    · by_cases ha : Dict.hasKey a k' = true
      · simp [List.filter, ha, ih, Dict.getVal, hk]
      · simp only [Bool.not_eq_true] at ha
        simp [List.filter, ha, Dict.getVal, hk, ih]

/-- The key fact about the Python overlay `{**a, **b}` / `a.update(b)`:
looked up per key, `b` wins where present, otherwise `a`. -/
theorem Dict.getVal_update (a b : Dict) (k : String) :
    Dict.getVal (Dict.update a b) k = (Dict.getVal b k).or (Dict.getVal a k) := by
  rw [Dict.update, Dict.getVal_append, Dict.getVal_map_override,
    Dict.getVal_filter_not_hasKey, Dict.hasKey_eq_isSome]
  cases ha : Dict.getVal a k <;> cases hb : Dict.getVal b k <;> simp

theorem Dict.hasKey_update_left (a b : Dict) (k : String)
    (h : Dict.hasKey a k = true) : Dict.hasKey (Dict.update a b) k = true := by
  rw [Dict.hasKey_eq_isSome] at h ⊢
  rw [Dict.getVal_update]
  cases hb : Dict.getVal b k <;> simp_all

/-! ## Characterisation of the records built by `create_user` / `create_product` -/

/-- Per-key contents of the record built by `create_user`: caller-supplied
keys win verbatim; absent known keys get their defaults (`gen` for `'id'`). -/
theorem create_user_getVal (users : List Dict) (gen : String) (user_data : Dict)
    (k : String) :
    Dict.getVal (create_user users gen user_data).1 k
      = match Dict.getVal user_data k with
        | some v => some v
        | none =>
          if k = "id" then some (Value.vStr gen)
          else if k = "name" then some (Value.vStr "Unknown")
          else if k = "email" then some (Value.vStr "")
          else none := by
  have h : (create_user users gen user_data).1
      = Dict.update
          [("id", Dict.getD user_data "id" (Value.vStr gen)),
           ("name", Dict.getD user_data "name" (Value.vStr "Unknown")),
           ("email", Dict.getD user_data "email" (Value.vStr ""))] user_data := rfl
  rw [h, Dict.getVal_update]
  cases hd : Dict.getVal user_data k with
  | some v => rfl
  | none =>
    by_cases h1 : k = "id"
    · subst h1; simp [Dict.getVal, Dict.getD, hd]
    · by_cases h2 : k = "name"
      · subst h2; simp [Dict.getVal, Dict.getD, hd, h1, Ne.symm h1]
      · by_cases h3 : k = "email"
        · subst h3
          simp [Dict.getVal, Dict.getD, hd, h1, h2, Ne.symm h1, Ne.symm h2]
        · simp [Dict.getVal, h1, h2, h3, Ne.symm h1, Ne.symm h2, Ne.symm h3]

/-- Per-key contents of the record built by `create_product`. -/
theorem create_product_getVal (products : List Dict) (gen : String)
    (product_data : Dict) (k : String) :
    Dict.getVal (create_product products gen product_data).1 k
      = match Dict.getVal product_data k with
        | some v => some v
        | none =>
          if k = "id" then some (Value.vStr gen)
          else if k = "name" then some (Value.vStr "Unknown Product")
          else if k = "price" then some (Value.vNum 0)
          else none := by
  have h : (create_product products gen product_data).1
      = Dict.update
          [("id", Dict.getD product_data "id" (Value.vStr gen)),
           ("name", Dict.getD product_data "name" (Value.vStr "Unknown Product")),
           ("price", Dict.getD product_data "price" (Value.vNum 0))] product_data := rfl
  rw [h, Dict.getVal_update]
  cases hd : Dict.getVal product_data k with
  | some v => rfl
  | none =>
    by_cases h1 : k = "id"
    · subst h1; simp [Dict.getVal, Dict.getD, hd]
    · by_cases h2 : k = "name"
      · subst h2; simp [Dict.getVal, Dict.getD, hd, h1, Ne.symm h1]
      · by_cases h3 : k = "price"
        · subst h3
          simp [Dict.getVal, Dict.getD, hd, h1, h2, Ne.symm h1, Ne.symm h2]
        · simp [Dict.getVal, h1, h2, h3, Ne.symm h1, Ne.symm h2, Ne.symm h3]

/-- The state after `create_user` is the old list with the new record appended. -/
theorem create_user_state (users : List Dict) (gen : String) (user_data : Dict) :
    (create_user users gen user_data).2
      = users ++ [(create_user users gen user_data).1] := rfl

/-! ## Lookup lemmas -/

theorem get_user_append (xs ys : List Dict) (uid : Value) :
    get_user (xs ++ ys) uid
      = match get_user xs uid with
        | .error e => .error e
        | .ok none => get_user ys uid
        | .ok (some u) => .ok (some u) := by
  induction xs with
  | nil => rfl
  | cons u rest ih =>
    cases hu : Dict.getVal u "id" with
    | none => simp [get_user, hu]
    | some v =>
      by_cases hv : v = uid
      · simp [get_user, hu, hv]
      · simp [get_user, hu, hv, ih]

theorem get_user_none (users : List Dict) (uid : Value)
    (h : ∀ u ∈ users, ∃ w, Dict.getVal u "id" = some w ∧ w ≠ uid) :
    get_user users uid = .ok none := by
  induction users with
  | nil => rfl
  | cons u rest ih =>
    obtain ⟨w, hw, hne⟩ := h u (by simp)
    have hrest := ih fun v hv => h v (List.mem_cons_of_mem _ hv)
    simp [get_user, hw, hne, hrest]

theorem get_user_isOk (users : List Dict) (uid : Value)
    (h : ∀ u ∈ users, (Dict.getVal u "id").isSome) :
    ∃ r, get_user users uid = .ok r := by
  induction users with
  | nil => exact ⟨none, rfl⟩
  | cons u rest ih =>
    have hu := h u (by simp)
    cases hu' : Dict.getVal u "id" with
    | none => rw [hu'] at hu; simp at hu
    | some v =>
      by_cases hv : v = uid
      · exact ⟨some u, by simp [get_user, hu', hv]⟩
      · obtain ⟨r, hr⟩ := ih fun v hv => h v (List.mem_cons_of_mem _ hv)
        exact ⟨r, by simp [get_user, hu', hv, hr]⟩

/-! ## Update lemmas -/

theorem update_user_not_found (users : List Dict) (uid : Value) (upd : Dict)
    (h : ∀ u ∈ users, ∃ w, Dict.getVal u "id" = some w ∧ w ≠ uid) :
    update_user users uid upd = .ok (none, users) := by
  induction users with
  | nil => rfl
  | cons u rest ih =>
    obtain ⟨w, hw, hne⟩ := h u (by simp)
    have hrest := ih fun v hv => h v (List.mem_cons_of_mem _ hv)
    simp [update_user, hw, hne, hrest]

theorem update_user_found (pre post : List Dict) (u : Dict) (uid : Value) (upd : Dict)
    (hpre : ∀ v ∈ pre, ∃ w, Dict.getVal v "id" = some w ∧ w ≠ uid)
    (hu : Dict.getVal u "id" = some uid) :
    update_user (pre ++ u :: post) uid upd
      = .ok (some (Dict.update u upd), pre ++ Dict.update u upd :: post) := by
  induction pre with
  | nil => simp [update_user, hu]
  | cons p rest ih =>
    obtain ⟨w, hw, hne⟩ := hpre p (by simp)
    have hrest := ih fun v hv => hpre v (List.mem_cons_of_mem _ hv)
    simp [update_user, hw, hne, hrest]

theorem update_user_mem (users : List Dict) (uid : Value) (upd : Dict)
    (r : Option Dict) (users' : List Dict)
    (h : update_user users uid upd = .ok (r, users')) :
    ∀ u ∈ users', u ∈ users ∨ ∃ u0 ∈ users, u = Dict.update u0 upd := by
  induction users generalizing r users' with
  | nil =>
    simp only [update_user] at h
    injection h with h'
    injection h' with h1 h2
    subst h2
    simp
  | cons p rest ih =>
    cases hp : Dict.getVal p "id" with
    | none => simp [update_user, hp] at h
    | some v =>
      by_cases hv : v = uid
      · simp only [update_user, hp, hv, if_pos] at h
        injection h with h'
        injection h' with h1 h2
        subst h2
        intro u hu
        rcases List.mem_cons.1 hu with rfl | hu'
        · exact Or.inr ⟨p, by simp, rfl⟩
        · exact Or.inl (List.mem_cons_of_mem _ hu')
      · simp only [update_user, hp, hv, if_neg, if_false] at h
        cases hrec : update_user rest uid upd with
        | error e => rw [hrec] at h; exact absurd h (by simp)
        | ok q =>
          obtain ⟨r0, rest'⟩ := q
          rw [hrec] at h
          injection h with h'
          injection h' with h1 h2
          subst h1 h2
          intro u hu
          rcases List.mem_cons.1 hu with rfl | hu'
          · exact Or.inl (by simp)
          · rcases ih r0 rest' hrec u hu' with h1 | ⟨u0, hu0, rfl⟩
            · exact Or.inl (List.mem_cons_of_mem _ h1)
            · exact Or.inr ⟨u0, List.mem_cons_of_mem _ hu0, rfl⟩

/-! ## The reachability invariant: every stored record has the `'id'` key -/

theorem reachable_id_isSome {s : List Dict} (h : Reachable s) :
    ∀ u ∈ s, (Dict.getVal u "id").isSome := by
  induction h with
  | init => simp
  | step_create gen user_data hs ih =>
    rename_i t
    intro u hu
    rw [create_user_state] at hu
    rcases List.mem_append.1 hu with h1 | h1
    · exact ih u h1
    · have hr : u = (create_user t gen user_data).1 := by simpa using h1
      subst hr
      rw [create_user_getVal]
      cases Dict.getVal user_data "id" <;> simp
  | step_update uid upd hs ih =>
    rename_i t
    intro u hu
    unfold update_user_state at hu
    cases hres : update_user t uid upd with
    | error e => rw [hres] at hu; exact ih u hu
    | ok q =>
      obtain ⟨r, s'⟩ := q
      rw [hres] at hu
      rcases update_user_mem t uid upd r s' hres u hu with h1 | ⟨u0, hu0, rfl⟩
      · exact ih u h1
      · rw [Dict.getVal_update]
        have h0 := ih u0 hu0
        cases hupd : Dict.getVal upd "id" <;>
          cases h0' : Dict.getVal u0 "id" <;> simp_all [Option.or]

/-! ## The claims -/

/-- C1 (counterexample): after creating a second record with the explicit
identifier `"a"` that an earlier, different record already carries, `get_user`
on the new record's identifier returns the earlier record, which is not equal
to the newly created one. -/
theorem C1_counterexample :
    Dict.getVal (create_user (create_user [] "g1"
        [("id", Value.vStr "a"), ("name", Value.vStr "x")]).2 "g2"
        [("id", Value.vStr "a"), ("name", Value.vStr "y")]).1 "id"
      = some (Value.vStr "a")
    ∧ get_user (create_user (create_user [] "g1"
        [("id", Value.vStr "a"), ("name", Value.vStr "x")]).2 "g2"
        [("id", Value.vStr "a"), ("name", Value.vStr "y")]).2 (Value.vStr "a")
      = Except.ok (some [("id", Value.vStr "a"), ("name", Value.vStr "x"),
          ("email", Value.vStr "")])
    ∧ [("id", Value.vStr "a"), ("name", Value.vStr "x"), ("email", Value.vStr "")]
      ≠ (create_user (create_user [] "g1"
          [("id", Value.vStr "a"), ("name", Value.vStr "x")]).2 "g2"
          [("id", Value.vStr "a"), ("name", Value.vStr "y")]).1 := by
  decide

/-- C1 (amended): for every record `r` returned by `create_user`, provided
every record already in the store carries an `'id'` field whose value differs
from `r`'s identifier, `get_user` on `r`'s identifier value, on the store
resulting from the creation, returns `r` itself. -/
theorem C1_create_then_get (users : List Dict) (gen : String) (user_data : Dict)
    (v : Value)
    (hv : Dict.getVal (create_user users gen user_data).1 "id" = some v)
    (hfresh : ∀ u ∈ users, ∃ w, Dict.getVal u "id" = some w ∧ w ≠ v) :
    get_user (create_user users gen user_data).2 v
      = Except.ok (some (create_user users gen user_data).1) := by
  rw [create_user_state, get_user_append, get_user_none users v hfresh]
  simp [get_user, hv]

theorem C1_create_then_get_witness :
    get_user (create_user [] "g" []).2 (Value.vStr "g")
      = Except.ok (some (create_user [] "g" []).1) :=
  C1_create_then_get [] "g" [] (Value.vStr "g") (by decide) (by simp)

/-- C2: `fetch_user` / `fetch_product` return exactly the same result as
`get_user` / `get_product` on every store state and every input identifier,
including the absent case. -/
theorem C2_fetch_eq_get (users products : List Dict) (x : Value) :
    fetch_user users x = get_user users x
    ∧ fetch_product products x = get_product products x :=
  ⟨rfl, rfl⟩

/-- C3 (counterexample): the input `{'id': ''}` supplies an *empty*
identifier, yet `create_user` stores the empty string verbatim instead of the
freshly generated `"abcdefghi"`. -/
theorem C3_counterexample :
    Dict.getVal (create_user [] "abcdefghi" [("id", Value.vStr "")]).1 "id"
      = some (Value.vStr "")
    ∧ Dict.getVal (create_user [] "abcdefghi" [("id", Value.vStr "")]).1 "id"
      ≠ some (Value.vStr "abcdefghi") := by
  decide

/-- C3 (amended): in `create_user` / `create_product`, the new record's
identifier is the caller's value verbatim whenever the input mapping contains
the `'id'` key — whatever the value, the empty string included — and the
freshly generated identifier exactly when the key is absent. -/
theorem C3_id_determination (users products : List Dict) (gen : String)
    (user_data product_data : Dict) :
    (Dict.getVal (create_user users gen user_data).1 "id"
      = match Dict.getVal user_data "id" with
        | some v => some v
        | none => some (Value.vStr gen))
    ∧ (Dict.getVal (create_product products gen product_data).1 "id"
      = match Dict.getVal product_data "id" with
        | some v => some v
        | none => some (Value.vStr gen)) := by
  constructor
  · rw [create_user_getVal]
    cases Dict.getVal user_data "id" <;> simp
  · rw [create_product_getVal]
    cases Dict.getVal product_data "id" <;> simp

/-- C4: looked up at any key `k`, the record returned by `create_user` /
`create_product` carries the caller's literal value whenever the input
supplies `k` (identifier, known or arbitrary extra key alike), the entity
kind's computed default when `k` is a known key genuinely absent from the
input (`gen` for `'id'`, `"Unknown"` / `"Unknown Product"` for `'name'`,
`""` for `'email'`, `0.0` for `'price'`), and nothing otherwise. -/
theorem C4_create_fields (users products : List Dict) (gen : String)
    (user_data product_data : Dict) (k : String) :
    (Dict.getVal (create_user users gen user_data).1 k
      = match Dict.getVal user_data k with
        | some v => some v
        | none =>
          if k = "id" then some (Value.vStr gen)
          else if k = "name" then some (Value.vStr "Unknown")
          else if k = "email" then some (Value.vStr "")
          else none)
    ∧ (Dict.getVal (create_product products gen product_data).1 k
      = match Dict.getVal product_data k with
        | some v => some v
        | none =>
          if k = "id" then some (Value.vStr gen)
          else if k = "name" then some (Value.vStr "Unknown Product")
          else if k = "price" then some (Value.vNum 0)
          else none) :=
  ⟨create_user_getVal users gen user_data k,
   create_product_getVal products gen product_data k⟩

/-- C5: on any reachable store state, `update_user` with an identifier no
stored record matches returns `none` and returns the store completely
unchanged — same list, hence same size and same contents of every record —
whatever the `updates` mapping. -/
theorem C5_update_missing (users : List Dict) (uid : Value) (upd : Dict)
    (hreach : Reachable users)
    (hmiss : ∀ u ∈ users, Dict.getVal u "id" ≠ some uid) :
    update_user users uid upd = Except.ok (none, users) := by
  apply update_user_not_found
  intro u hu
  have h1 := reachable_id_isSome hreach u hu
  cases h : Dict.getVal u "id" with
  | none => rw [h] at h1; simp at h1
  | some w =>
    refine ⟨w, rfl, fun hwuid => hmiss u hu ?_⟩
    rw [h, hwuid]

theorem C5_update_missing_witness :
    update_user (create_user [] "g" []).2 (Value.vStr "z")
        [("name", Value.vStr "Bob")]
      = Except.ok (none, (create_user [] "g" []).2) :=
  C5_update_missing (create_user [] "g" []).2 (Value.vStr "z")
    [("name", Value.vStr "Bob")]
    (Reachable.step_create "g" [] Reachable.init)
    (by decide)

/-- C6: `update_user` on a store whose first `uid`-match is the record `u`
replaces exactly `u` by `u.update(updates)` at its position: every key of the
partial mapping overwrites or adds the corresponding field of `u`, every
field of `u` not mentioned keeps its previous value, every other record is
untouched, and the element count is unchanged. -/
theorem C6_update_found (pre post : List Dict) (u : Dict) (uid : Value)
    (upd : Dict)
    (hpre : ∀ v ∈ pre, ∃ w, Dict.getVal v "id" = some w ∧ w ≠ uid)
    (hu : Dict.getVal u "id" = some uid) :
    update_user (pre ++ u :: post) uid upd
      = Except.ok (some (Dict.update u upd), pre ++ Dict.update u upd :: post)
    ∧ (∀ k, Dict.getVal (Dict.update u upd) k
        = match Dict.getVal upd k with
          | some v => some v
          | none => Dict.getVal u k)
    ∧ (pre ++ Dict.update u upd :: post).length = (pre ++ u :: post).length := by
  refine ⟨update_user_found pre post u uid upd hpre hu, ?_, by simp⟩
  intro k
  rw [Dict.getVal_update]
  cases Dict.getVal upd k <;> rfl

theorem C6_update_found_witness :
    update_user ([] ++ [("id", Value.vStr "a"), ("name", Value.vStr "x")] :: [])
        (Value.vStr "a") [("name", Value.vStr "Bob")]
      = Except.ok (some [("id", Value.vStr "a"), ("name", Value.vStr "Bob")],
          [[("id", Value.vStr "a"), ("name", Value.vStr "Bob")]]) :=
  (C6_update_found [] [] [("id", Value.vStr "a"), ("name", Value.vStr "x")]
    (Value.vStr "a") [("name", Value.vStr "Bob")] (by simp) (by decide)).1

/-- C7 (counterexample): a store holds two records, with identifiers `"b"`
and `"a"` (exactly one record has identifier `"a"`, as `countId` certifies);
updating the `"a"` record with `{'id': 'b'}` overwrites its identifier, but
`get_user` on the new identifier `"b"` then returns the *other*, earlier
record, not the mutated one. -/
theorem C7_counterexample :
    countId (create_user (create_user [] "g1"
        [("id", Value.vStr "b"), ("name", Value.vStr "x")]).2 "g2"
        [("id", Value.vStr "a")]).2 (Value.vStr "a") = 1
    ∧ update_user (create_user (create_user [] "g1"
        [("id", Value.vStr "b"), ("name", Value.vStr "x")]).2 "g2"
        [("id", Value.vStr "a")]).2 (Value.vStr "a") [("id", Value.vStr "b")]
      = Except.ok
          (some [("id", Value.vStr "b"), ("name", Value.vStr "Unknown"),
            ("email", Value.vStr "")],
           [[("id", Value.vStr "b"), ("name", Value.vStr "x"),
             ("email", Value.vStr "")],
            [("id", Value.vStr "b"), ("name", Value.vStr "Unknown"),
             ("email", Value.vStr "")]])
    ∧ get_user
        [[("id", Value.vStr "b"), ("name", Value.vStr "x"),
          ("email", Value.vStr "")],
         [("id", Value.vStr "b"), ("name", Value.vStr "Unknown"),
          ("email", Value.vStr "")]] (Value.vStr "b")
      = Except.ok (some [("id", Value.vStr "b"), ("name", Value.vStr "x"),
          ("email", Value.vStr "")])
    ∧ [("id", Value.vStr "b"), ("name", Value.vStr "x"), ("email", Value.vStr "")]
      ≠ [("id", Value.vStr "b"), ("name", Value.vStr "Unknown"),
          ("email", Value.vStr "")] := by
  decide

/-- C7 (amended): the identifier field is not protected by `update_user`:
if the store holds exactly one record `u` with identifier `oldId`, every
record carries an identifier, and — as the counterexample forces — no other
record carries `newId` either, then after `update_user oldId p` with `p`
mapping `'id'` to `newId ≠ oldId`, the record sits at its original position
with identifier overwritten to `newId`, `get_user oldId` returns the absent
result, and `get_user newId` returns the mutated record. -/
theorem C7_id_overwrite (pre post : List Dict) (u p : Dict) (oldId newId : Value)
    (hothers : ∀ v ∈ pre ++ post,
      ∃ w, Dict.getVal v "id" = some w ∧ w ≠ oldId ∧ w ≠ newId)
    (hu : Dict.getVal u "id" = some oldId)
    (hp : Dict.getVal p "id" = some newId)
    (hne : newId ≠ oldId) :
    update_user (pre ++ u :: post) oldId p
      = Except.ok (some (Dict.update u p), pre ++ Dict.update u p :: post)
    ∧ Dict.getVal (Dict.update u p) "id" = some newId
    ∧ get_user (pre ++ Dict.update u p :: post) oldId = Except.ok none
    ∧ get_user (pre ++ Dict.update u p :: post) newId
        = Except.ok (some (Dict.update u p)) := by
  have hu' : Dict.getVal (Dict.update u p) "id" = some newId := by
    rw [Dict.getVal_update, hp]; rfl
  refine ⟨?_, hu', ?_, ?_⟩
  · refine update_user_found pre post u oldId p (fun v hv => ?_) hu
    obtain ⟨w, hw, hw1, hw2⟩ := hothers v (List.mem_append_left _ hv)
    exact ⟨w, hw, hw1⟩
  · apply get_user_none
    intro v hv
    rcases List.mem_append.1 hv with h1 | h1
    · obtain ⟨w, hw, hw1, hw2⟩ := hothers v (List.mem_append_left _ h1)
      exact ⟨w, hw, hw1⟩
    · rcases List.mem_cons.1 h1 with rfl | h2
      · exact ⟨newId, hu', hne⟩
      · obtain ⟨w, hw, hw1, hw2⟩ := hothers v (List.mem_append_right _ h2)
        exact ⟨w, hw, hw1⟩
  · rw [get_user_append]
    have hpre2 : get_user pre newId = .ok none := by
      apply get_user_none
      intro v hv
      obtain ⟨w, hw, hw1, hw2⟩ := hothers v (List.mem_append_left _ hv)
      exact ⟨w, hw, hw2⟩
    rw [hpre2]
    simp [get_user, hu']

theorem C7_id_overwrite_witness :
    update_user ([] ++ [("id", Value.vStr "a")] :: []) (Value.vStr "a")
        [("id", Value.vStr "b")]
      = Except.ok (some (Dict.update [("id", Value.vStr "a")]
            [("id", Value.vStr "b")]),
          [] ++ Dict.update [("id", Value.vStr "a")] [("id", Value.vStr "b")] :: [])
    ∧ Dict.getVal (Dict.update [("id", Value.vStr "a")] [("id", Value.vStr "b")])
        "id" = some (Value.vStr "b")
    ∧ get_user ([] ++ Dict.update [("id", Value.vStr "a")]
        [("id", Value.vStr "b")] :: []) (Value.vStr "a") = Except.ok none
    ∧ get_user ([] ++ Dict.update [("id", Value.vStr "a")]
        [("id", Value.vStr "b")] :: []) (Value.vStr "b")
      = Except.ok (some (Dict.update [("id", Value.vStr "a")]
          [("id", Value.vStr "b")])) :=
  C7_id_overwrite [] [] [("id", Value.vStr "a")] [("id", Value.vStr "b")]
    (Value.vStr "a") (Value.vStr "b") (by simp) (by decide) (by decide) (by decide)

/-- C8: `create_user` with an explicit identifier equal to the identifier of
an existing record (of which the store holds exactly one) appends a second
record carrying that identifier — the store then counts two such records —
and `get_user` on that identifier still returns the earlier record, the first
match in insertion order, not the newly created one. -/
theorem C8_duplicate_create (users : List Dict) (gen : String) (user_data : Dict)
    (v : Value) (u0 : Dict)
    (hd : Dict.getVal user_data "id" = some v)
    (hget : get_user users v = Except.ok (some u0))
    (hcount : countId users v = 1) :
    Dict.getVal (create_user users gen user_data).1 "id" = some v
    ∧ (create_user users gen user_data).2
        = users ++ [(create_user users gen user_data).1]
    ∧ get_user (create_user users gen user_data).2 v = Except.ok (some u0)
    ∧ countId (create_user users gen user_data).2 v = 2 := by
  have hid : Dict.getVal (create_user users gen user_data).1 "id" = some v := by
    rw [create_user_getVal, hd]
  refine ⟨hid, create_user_state users gen user_data, ?_, ?_⟩
  · rw [create_user_state, get_user_append, hget]
  · rw [create_user_state]
    simp only [countId] at hcount ⊢
    rw [List.countP_append, hcount]
    simp [List.countP_cons, hid]

theorem C8_duplicate_create_witness :
    Dict.getVal (create_user (create_user [] "g1"
        [("id", Value.vStr "a"), ("name", Value.vStr "x")]).2 "g2"
        [("id", Value.vStr "a")]).1 "id" = some (Value.vStr "a")
    ∧ (create_user (create_user [] "g1"
        [("id", Value.vStr "a"), ("name", Value.vStr "x")]).2 "g2"
        [("id", Value.vStr "a")]).2
      = (create_user [] "g1" [("id", Value.vStr "a"), ("name", Value.vStr "x")]).2
        ++ [(create_user (create_user [] "g1"
            [("id", Value.vStr "a"), ("name", Value.vStr "x")]).2 "g2"
            [("id", Value.vStr "a")]).1]
    ∧ get_user (create_user (create_user [] "g1"
        [("id", Value.vStr "a"), ("name", Value.vStr "x")]).2 "g2"
        [("id", Value.vStr "a")]).2 (Value.vStr "a")
      = Except.ok (some [("id", Value.vStr "a"), ("name", Value.vStr "x"),
          ("email", Value.vStr "")])
    ∧ countId (create_user (create_user [] "g1"
        [("id", Value.vStr "a"), ("name", Value.vStr "x")]).2 "g2"
        [("id", Value.vStr "a")]).2 (Value.vStr "a") = 2 :=
  C8_duplicate_create
    (create_user [] "g1" [("id", Value.vStr "a"), ("name", Value.vStr "x")]).2
    "g2" [("id", Value.vStr "a")] (Value.vStr "a")
    [("id", Value.vStr "a"), ("name", Value.vStr "x"), ("email", Value.vStr "")]
    (by decide) (by decide) (by decide)

theorem update_user_isOk (users : List Dict) (uid : Value) (upd : Dict)
    (h : ∀ u ∈ users, (Dict.getVal u "id").isSome) :
    ∃ r, update_user users uid upd = .ok r := by
  induction users with
  | nil => exact ⟨(none, []), rfl⟩
  | cons u rest ih =>
    have hu := h u (by simp)
    cases hu' : Dict.getVal u "id" with
    | none => rw [hu'] at hu; simp at hu
    | some v =>
      by_cases hv : v = uid
      · exact ⟨(some (Dict.update u upd), Dict.update u upd :: rest),
          by simp [update_user, hu', hv]⟩
      · obtain ⟨r, hr⟩ := ih fun w hw => h w (List.mem_cons_of_mem _ hw)
        exact ⟨(r.1, u :: r.2), by simp [update_user, hu', hv, hr]⟩

/-- C9: whatever the 9 random draws, the identifier produced by
`_generate_id` (in either repository — the two bodies are identical) is a
string of exactly 9 characters, each a member of the 36-symbol alphabet of
lowercase ASCII letters and decimal digits; and `create_user` /
`create_product` on the empty input mapping return exactly the record whose
identifier is the generated string and whose known fields carry their
declared defaults. -/
theorem C9_generate_id_shape (pick : Fin 9 → Fin idAlphabet.length)
    (users products : List Dict) :
    idAlphabet.length = 36
    ∧ (UserRepository._generate_id pick).length = 9
    ∧ (∀ c ∈ (UserRepository._generate_id pick).data,
        c ∈ idAlphabet ∧ (c.isLower = true ∨ c.isDigit = true))
    ∧ ProductRepository._generate_id pick = UserRepository._generate_id pick
    ∧ (create_user users (UserRepository._generate_id pick) []).1
        = [("id", Value.vStr (UserRepository._generate_id pick)),
           ("name", Value.vStr "Unknown"), ("email", Value.vStr "")]
    ∧ (create_product products (ProductRepository._generate_id pick) []).1
        = [("id", Value.vStr (ProductRepository._generate_id pick)),
           ("name", Value.vStr "Unknown Product"), ("price", Value.vNum 0)] := by
  refine ⟨by decide, ?_, ?_, rfl, rfl, rfl⟩
  · simp [UserRepository._generate_id, String.length]
  · intro c hc
    have hmem : c ∈ List.map (fun i => idAlphabet.get (pick i))
        (List.finRange 9) := hc
    rcases List.mem_map.1 hmem with ⟨i, _, rfl⟩
    have halpha : idAlphabet.get (pick i) ∈ idAlphabet := idAlphabet.get_mem _ _
    have hchar : ∀ c ∈ idAlphabet, c.isLower = true ∨ c.isDigit = true := by
      decide
    exact ⟨halpha, hchar _ halpha⟩

/-- C10: on every store state reachable from a fresh `UserRepository` by any
sequence of `create_user` / `update_user` calls, every stored record contains
the `'id'` key, so the `user['id']` subscript performed while scanning never
raises: `get_user` — hence `fetch_user` — and `update_user` never take the
key-error branch, returning `.ok` for every looked-up identifier. -/
theorem C10_id_invariant (s : List Dict) (h : Reachable s) :
    (∀ u ∈ s, Dict.hasKey u "id" = true)
    ∧ (∀ uid, ∃ r, get_user s uid = Except.ok r)
    ∧ (∀ uid, ∃ r, fetch_user s uid = Except.ok r)
    ∧ (∀ uid upd, ∃ r, update_user s uid upd = Except.ok r) := by
  have hid := reachable_id_isSome h
  exact ⟨fun u hu => by rw [Dict.hasKey_eq_isSome]; exact hid u hu,
         fun uid => get_user_isOk s uid hid,
         fun uid => get_user_isOk s uid hid,
         fun uid upd => update_user_isOk s uid upd hid⟩

theorem C10_id_invariant_witness :
    Dict.hasKey [("id", Value.vStr "g"), ("name", Value.vStr "Bob"),
      ("email", Value.vStr "")] "id" = true :=
  (C10_id_invariant
    (update_user_state (create_user [] "g" []).2 (Value.vStr "g")
      [("name", Value.vStr "Bob")])
    (Reachable.step_update (Value.vStr "g") [("name", Value.vStr "Bob")]
      (Reachable.step_create "g" [] Reachable.init))).1
    [("id", Value.vStr "g"), ("name", Value.vStr "Bob"), ("email", Value.vStr "")]
    (by decide)
